import Mathlib

/-!
Verification of the staff-evaluation visualization pipeline (`eval.py`).

The pipeline is a linear extract-transform-plot program over an in-memory
table: `load_clean` (parse and drop invalid rows, optional school-year
filter), `make_eval_group` (ordered regex normalization of the
evaluation-type label), four aggregators (distribution, by category, by
month, by observer) and their renderers.

The shallow embedding below models:
* a CSV cell already passed through `pd.to_datetime(..., errors="coerce")`
  / `pd.to_numeric(..., errors="coerce")` as an `Option` (`none` is the
  missing marker NaT/NaN produced by an unparseable cell);
* numeric scores as `ℚ` (exact arithmetic for the grouping formulas);
* a DataFrame as a `List` of rows, `groupby` as key extraction plus
  filtering, pandas' ascending key sort and `sort_values` as a stable
  insertion sort;
* each regex rule `^P.*S.*$` of `make_eval_group` as "starts with `P` and
  contains `S` after the prefix" on newline-free cell values, and
  `Series.replace(dict, regex=True)` as the rules applied in dict order to
  the evolving value (an anchored pattern that matches replaces the whole
  string by the rule's replacement).
-/

namespace EvalViz

/-! ### Regex-rule model for `make_eval_group` -/

/-- One entry of the `replace` dictionary in `make_eval_group`: the pattern
`^pre.*$` when `sub = none`, or `^pre.*sub.*$` when `sub = some s`, with
replacement `repl`. -/
structure Rule where
  pre : String
  sub : Option String
  repl : String
deriving DecidableEq

/-- `hasSubstr needle hay` holds when `needle` occurs contiguously in
`hay` (the `.*sub.*` part of a pattern). -/
def hasSubstr (needle : List Char) : List Char → Bool
  | [] => needle.isEmpty
  | c :: cs => needle.isPrefixOf (c :: cs) || hasSubstr needle cs

/-- Whether the anchored pattern of `ru` matches the whole-cell value `s`:
`s` starts with `ru.pre`, and when the rule has a `.*sub.*` part, `sub`
occurs at or after the end of the matched `pre`. -/
def ruleMatches (ru : Rule) (s : String) : Bool :=
  ru.pre.toList.isPrefixOf s.toList &&
    match ru.sub with
    | none => true
    | some m => hasSubstr m.toList (s.toList.drop ru.pre.toList.length)

/-- The replacement dictionary of `make_eval_group`, in dict (insertion)
order. -/
def evalRules : List Rule :=
  [⟨"Teacher", some "Announced", "Teacher (Announced)"⟩,
   ⟨"Teacher", some "Unannounced", "Teacher (Unannounced)"⟩,
   ⟨"Teacher", some "Domain 4", "Teacher (Domain 4)"⟩,
   ⟨"Counselor", some "Announced", "Counselor (Announced)"⟩,
   ⟨"Counselor", some "Unannounced", "Counselor (Unannounced)"⟩,
   ⟨"Counselor", some "Domain 4", "Counselor (Domain 4)"⟩,
   ⟨"Nurse", some "Announced", "Nurse (Announced)"⟩,
   ⟨"Nurse", some "Unannounced", "Nurse (Unannounced)"⟩,
   ⟨"Nurse", some "Domain 4", "Nurse (Domain 4)"⟩,
   ⟨"Child Study Team", none, "Child Study Team"⟩,
   ⟨"Related Services", none, "Related Services"⟩,
   ⟨"Instructional Assistant", none, "Instructional Assistant"⟩,
   ⟨"Administrators", none, "Administrator"⟩,
   ⟨"Media", none, "Media Specialist"⟩]

/-- One step of `Series.replace`: an anchored pattern that matches replaces
the whole value by the rule's replacement text. -/
def applyRule (ru : Rule) (s : String) : String :=
  if ruleMatches ru s then ru.repl else s

/-- `Series.replace(dict, regex=True)` on one cell: the rules applied in
dict order to the evolving value. -/
def seqReplace (rs : List Rule) (s : String) : String :=
  rs.foldl (fun cur ru => applyRule ru cur) s

/-- The per-cell normalizer of `make_eval_group`.  (The trailing `fillna`
in the source is a no-op: `astype(str)` has already removed missing
values, and a replacement never produces one.) -/
def evalGroupOf (s : String) : String :=
  seqReplace evalRules s

/-- Modelled from the spec: the single-pass first-match-wins reference
normalizer of section 4.2 — the first rule whose pattern matches decides
the group, unmatched labels pass through verbatim. -/
def firstMatchGroup : List Rule → String → String
  | [], s => s
  | ru :: rs, s => if ruleMatches ru s then ru.repl else firstMatchGroup rs s

/-- No replacement string produced by a rule is matched by any later
rule's pattern. -/
def noRematch : List Rule → Bool
  | [] => true
  | ru :: rs => rs.all (fun r2 => !ruleMatches r2 ru.repl) && noRematch rs

/-! ### Data model: rows and tables -/

/-- A calendar date, the result of a successful `pd.to_datetime` parse. -/
structure Date where
  year : ℤ
  month : ℕ
  day : ℕ
deriving DecidableEq

/-- One input row.  `date` and `score` are the date/score cells after the
`errors="coerce"` parses of `load_clean` (`none` is the missing marker an
unparseable cell becomes); the remaining cells are kept as text. -/
structure RawRow where
  date : Option Date
  score : Option ℚ
  schoolYear : String
  observer : String
  etype : String
deriving DecidableEq

/-- The input table: whether each optional-to-the-logic column alias is
present after the header whitespace trim, plus the rows. -/
structure Csv where
  hasDateCol : Bool
  hasScoreCol : Bool
  hasSchoolYearCol : Bool
  rows : List RawRow
deriving DecidableEq

/-! ### Loader (`load_clean`) -/

/-- `df.dropna(subset=[date_col, score_col])`: keep the rows whose date and
score both parsed. -/
def dropInvalid (rows : List RawRow) : List RawRow :=
  rows.filter (fun r => r.date.isSome && r.score.isSome)

/-- The school-year filter step.  Python's `if school_year_filter` is
false for `None` and for the empty string, so only a non-empty supplied
value (with the column present) triggers the exact-match filter. -/
def yearFilter (hasSY : Bool) (filt : Option String) (rows : List RawRow) :
    List RawRow :=
  match filt with
  | some f =>
      if f != "" && hasSY then rows.filter (fun r => r.schoolYear == f)
      else rows
  | none => rows

/-- `load_clean`: error when the date or score column alias is absent,
otherwise drop unparseable rows then apply the school-year filter.  (The
derived `Month` / `MonthStart` columns are recomputed from the parsed date
by `monthKeyOf` where the aggregators need them.) -/
def loadClean (csv : Csv) (filt : Option String) :
    Except String (List RawRow) :=
  if csv.hasDateCol && csv.hasScoreCol then
    Except.ok (yearFilter csv.hasSchoolYearCol filt (dropInvalid csv.rows))
  else
    Except.error "CSV must include the date and score columns."

/-- The `Month` / `MonthStart` derivation: both added columns are
determined by the (year, month) of the parsed observation date, and
`MonthStart` dates compare exactly as these pairs do lexicographically. -/
def monthKeyOf (d : Date) : ℤ × ℕ :=
  (d.year, d.month)

/-! ### Category normalizer (`make_eval_group`) -/

/-- `make_eval_group`: a copy of the table with the derived `EvalGroup`
column attached to each row. -/
def makeEvalGroup (rows : List RawRow) : List (RawRow × String) :=
  rows.map (fun r => (r, evalGroupOf r.etype))

/-! ### Shared statistics -/

/-- Mean of a nonempty list of scores. -/
def meanQ (xs : List ℚ) : ℚ :=
  xs.sum / xs.length

/-- Pandas mean of a (possibly empty) score list: `none` is the NaN a
mean over no values produces. -/
def meanOpt (xs : List ℚ) : Option ℚ :=
  if xs.isEmpty then none else some (meanQ xs)

/-- Pandas median: middle of the sorted values, or the average of the two
middle values for an even count; NaN (`none`) for no values. -/
def medianOpt (xs : List ℚ) : Option ℚ :=
  if xs.length = 0 then none
  else if xs.length % 2 = 1 then
    (List.insertionSort (· ≤ ·) xs)[xs.length / 2]?
  else
    match (List.insertionSort (· ≤ ·) xs)[xs.length / 2 - 1]?,
        (List.insertionSort (· ≤ ·) xs)[xs.length / 2]? with
    | some a, some b => some ((a + b) / 2)
    | _, _ => none

/-- Pandas sample variance (`ddof=1`, the default of `Series.std`):
`Σ (x - mean)² / (n - 1)`, NaN (`none`) when fewer than two values. -/
def sampleVarOpt (xs : List ℚ) : Option ℚ :=
  if xs.length ≤ 1 then none
  else some ((xs.map (fun x => (x - meanQ xs) ^ 2)).sum / ((xs.length : ℚ) - 1))

/-- `Series.std()`: the square root of the sample variance.  The square
root lives in `ℝ`, the one non-executable step of the embedding. -/
noncomputable def sampleStd (xs : List ℚ) : Option ℝ :=
  (sampleVarOpt xs).map (fun v => Real.sqrt (v : ℝ))

/-- Pandas `Series.min()` (skipna): fold of `min` over the non-null
values, NaN (`none`) when there are none. -/
def listMin : List ℚ → Option ℚ
  | [] => none
  | x :: xs => some (xs.foldl min x)

/-- Pandas `Series.max()` (skipna). -/
def listMax : List ℚ → Option ℚ
  | [] => none
  | x :: xs => some (xs.foldl max x)

/-! ### Distribution aggregator + histogram renderer (`plot_hist`) -/

/-- The summary statistics `plot_hist` computes and draws. -/
structure HistOut where
  n : ℕ
  meanv : ℚ
  medianv : Option ℚ
  svar : Option ℚ
deriving DecidableEq

/-- `plot_hist` on the non-null scores: `none` models the degenerate
render of an empty series (NaN mean/median and an all-zero color
normalizer); otherwise the summary that is drawn.  The displayed standard
deviation is `Real.sqrt` of `svar` (see `sampleStd`). -/
def plotHist (xs : List ℚ) : Option HistOut :=
  if xs.isEmpty then none
  else some ⟨xs.length, meanQ xs, medianOpt xs, sampleVarOpt xs⟩

/-! ### Ordering relations used by the stable sorts -/

/-- `sort_values` comparison on a statistic column: NaN (`none`) sorts
last (`na_position="last"`). -/
def optLE : Option ℚ → Option ℚ → Prop
  | some a, some b => a ≤ b
  | some _, none => True
  | none, some _ => False
  | none, none => True

instance instDecOptLE : DecidableRel optLE
  | some a, some b => inferInstanceAs (Decidable (a ≤ b))
  | some _, none => inferInstanceAs (Decidable True)
  | none, some _ => inferInstanceAs (Decidable False)
  | none, none => inferInstanceAs (Decidable True)

instance : IsTotal (Option ℚ) optLE :=
  ⟨by
    intro a b
    cases a <;> cases b <;> simp [optLE]
    exact le_total _ _⟩

instance : IsTrans (Option ℚ) optLE :=
  ⟨by
    intro a b c hab hbc
    cases a <;> cases b <;> cases c <;> simp [optLE] at *
    exact le_trans hab hbc⟩

/-- Code-point lexicographic comparison of strings as character lists:
the ascending key order of pandas `groupby`. -/
def charsLE : List Char → List Char → Bool
  | [], _ => true
  | _ :: _, [] => false
  | a :: as, b :: bs =>
      if a.toNat < b.toNat then true
      else if b.toNat < a.toNat then false
      else charsLE as bs

/-- The `groupby` key order on strings. -/
def strLE (a b : String) : Prop :=
  charsLE a.toList b.toList = true

instance instDecStrLE : DecidableRel strLE := fun a b =>
  inferInstanceAs (Decidable (charsLE a.toList b.toList = true))

/-- Chronological comparison of month keys, the order of `MonthStart`. -/
def monthKeyLE (a b : ℤ × ℕ) : Prop :=
  a.1 < b.1 ∨ (a.1 = b.1 ∧ a.2 ≤ b.2)

instance instDecMonthKeyLE : DecidableRel monthKeyLE := fun a b =>
  inferInstanceAs (Decidable (a.1 < b.1 ∨ (a.1 = b.1 ∧ a.2 ≤ b.2)))

instance : IsTotal (ℤ × ℕ) monthKeyLE :=
  ⟨by
    intro a b
    rcases lt_trichotomy a.1 b.1 with h | h | h
    · exact Or.inl (Or.inl h)
    · rcases le_total a.2 b.2 with h2 | h2
      · exact Or.inl (Or.inr ⟨h, h2⟩)
      · exact Or.inr (Or.inr ⟨h.symm, h2⟩)
    · exact Or.inr (Or.inl h)⟩

instance : IsTrans (ℤ × ℕ) monthKeyLE :=
  ⟨by
    rintro a b c (h1 | ⟨h1, h1'⟩) (h2 | ⟨h2, h2'⟩)
    · exact Or.inl (lt_trans h1 h2)
    · exact Or.inl (h2 ▸ h1)
    · exact Or.inl (h1 ▸ h2)
    · exact Or.inr ⟨h1.trans h2, le_trans h1' h2'⟩⟩

/-! ### Category aggregator + grouped boxplot (`plot_box_by_type`) -/

/-- The per-group row of the `groupby("EvalGroup")` aggregation: key,
non-null score count, mean, and median.  (The written summary also holds
the standard deviation, the square root of the sample variance, which
plays no role in retention or ordering.) -/
structure GroupStat where
  key : String
  count : ℕ
  meanv : Option ℚ
  medianv : Option ℚ
deriving DecidableEq

/-- The scores of one evaluation group. -/
def groupScores (rows : List RawRow) (g : String) : List ℚ :=
  ((makeEvalGroup rows).filter (fun p => p.2 == g)).filterMap
    (fun p => p.1.score)

/-- The distinct group keys, in the ascending key order `groupby`
produces. -/
def evalGroupKeys (rows : List RawRow) : List String :=
  List.insertionSort strLE ((makeEvalGroup rows).map Prod.snd).dedup

/-- One aggregated row per evaluation group. -/
def groupStats (rows : List RawRow) : List GroupStat :=
  (evalGroupKeys rows).map fun g =>
    ⟨g, (groupScores rows g).length, meanOpt (groupScores rows g),
      medianOpt (groupScores rows g)⟩

/-- `sort_values("median")` comparison between aggregated group rows. -/
def medLE (a b : GroupStat) : Prop :=
  optLE a.medianv b.medianv

instance instDecMedLE : DecidableRel medLE := fun a b =>
  instDecOptLE a.medianv b.medianv

instance : IsTotal GroupStat medLE :=
  ⟨fun a b => total_of optLE a.medianv b.medianv⟩

instance : IsTrans GroupStat medLE :=
  ⟨fun a b c hab hbc => IsTrans.trans a.medianv b.medianv c.medianv hab hbc⟩

/-- `stats[stats["n"] >= min_n].sort_values("median")`: the retained
groups in the order of the chart and of the written summary table
(`.loc[order]`). -/
def retainedGroups (rows : List RawRow) (minN : ℕ) : List GroupStat :=
  List.insertionSort medLE
    ((groupStats rows).filter (fun st => minN ≤ st.count))

/-! ### Monthly aggregator (`plot_monthly_trend` and the means table) -/

/-- The distinct month keys of the rows with a parsed date. -/
def monthKeys (rows : List RawRow) : List (ℤ × ℕ) :=
  (rows.filterMap (fun r => r.date.map monthKeyOf)).dedup

/-- The non-null scores of one month bucket. -/
def monthScores (rows : List RawRow) (k : ℤ × ℕ) : List ℚ :=
  (rows.filter (fun r => r.date.map monthKeyOf == some k)).filterMap
    (fun r => r.score)

/-- `groupby(["Month", "MonthStart"])[score].mean()` followed by
`sort_values("MonthStart")`: mean score per month bucket, in chronological
order of the month-start date. -/
def monthlyMeans (rows : List RawRow) : List ((ℤ × ℕ) × Option ℚ) :=
  (List.insertionSort monthKeyLE (monthKeys rows)).map fun k =>
    (k, meanOpt (monthScores rows k))

/-! ### Observer aggregator + bar renderer (`plot_observer_bar`) -/

/-- One aggregated row of the observer table: key, mean, and non-null
score count. -/
structure ObsStat where
  key : String
  meanv : Option ℚ
  count : ℕ
deriving DecidableEq

/-- The non-null scores of one observer. -/
def observerScores (rows : List RawRow) (o : String) : List ℚ :=
  (rows.filter (fun r => r.observer == o)).filterMap (fun r => r.score)

/-- The distinct observer keys in ascending `groupby` order. -/
def observerKeys (rows : List RawRow) : List String :=
  List.insertionSort strLE (rows.map (fun r => r.observer)).dedup

/-- `sort_values("Mean")` comparison between observer rows. -/
def obsLE (a b : ObsStat) : Prop :=
  optLE a.meanv b.meanv

instance instDecObsLE : DecidableRel obsLE := fun a b =>
  instDecOptLE a.meanv b.meanv

instance : IsTotal ObsStat obsLE :=
  ⟨fun a b => total_of optLE a.meanv b.meanv⟩

instance : IsTrans ObsStat obsLE :=
  ⟨fun a b c hab hbc => IsTrans.trans a.meanv b.meanv c.meanv hab hbc⟩

/-- `stats[stats["Count"] >= min_n].sort_values("Mean")`: the retained
observers in chart order (also the written `evaluator_stats` table). -/
def observerStats (rows : List RawRow) (minN : ℕ) : List ObsStat :=
  List.insertionSort obsLE
    (((observerKeys rows).map fun o =>
        ⟨o, meanOpt (observerScores rows o),
          (observerScores rows o).length⟩).filter
      (fun st => minN ≤ st.count))

/-- The retained observer means, skipping NaN as pandas `.min()` /
`.max()` do. -/
def retainedMeans (rows : List RawRow) (minN : ℕ) : List ℚ :=
  (observerStats rows minN).filterMap (fun st => st.meanv)

/-- The vertical-axis limits of the observer bar chart:
`plt.ylim(min(3.0, means.min() - 0.1), min(4.05, max(4.0, means.max() + 0.1)))`;
`none` models the NaN limits of an empty retained set. -/
def observerYlim (rows : List RawRow) (minN : ℕ) : Option (ℚ × ℚ) :=
  match listMin (retainedMeans rows minN), listMax (retainedMeans rows minN) with
  | some lo, some hi =>
      some (min 3 (lo - 1 / 10), min (81 / 20) (max 4 (hi + 1 / 10)))
  | _, _ => none

/-! ### The driver (`main`) -/

/-- The artifacts `main` writes after a successful load: the histogram
summary, the grouped-category summary table, the monthly means table, and
the observer statistics table (each figure is determined by the matching
summary). -/
structure Outputs where
  histTable : Option HistOut
  boxTable : List GroupStat
  monthlyTable : List ((ℤ × ℕ) × Option ℚ)
  observerTable : List ObsStat
deriving DecidableEq

/-- `main`: load (which may fail with the configuration error), then run
the four aggregation/render/write stages.  On a load failure nothing is
aggregated, rendered, or written. -/
def mainRun (csv : Csv) (filt : Option String) (minNBox minNObs : ℕ) :
    Except String Outputs :=
  match loadClean csv filt with
  | Except.error e => Except.error e
  | Except.ok d =>
      Except.ok
        ⟨plotHist (d.filterMap (fun r => r.score)),
          retainedGroups d minNBox,
          monthlyMeans d,
          observerStats d minNObs⟩

/-! ### Concrete tables used to instantiate the properties -/

/-- A fully-parsed row with the given evaluation-type label, score, and
observer. -/
def mkRow (et : String) (q : ℚ) (ob : String) : RawRow :=
  ⟨some ⟨2023, 11, 1⟩, some q, "2023-24", ob, et⟩

def c1row1 : RawRow :=
  mkRow "Teacher Unannounced Observation Domain 2" 3 "Smith, Ann"

def c1row2 : RawRow :=
  mkRow "Volunteer Review" 3 "Smith, Ann"

def c1rows : List RawRow :=
  [c1row1, c1row2]

/-- Five observations by one observer, all scored 4.0: the retained
observer mean is 4, above the 3.95 level at which the 4.05 cap bites. -/
def c2rows : List RawRow :=
  List.replicate 5 (mkRow "T" 4 "Adams, Pat")

/-- Three evaluation groups with observation counts 3, 10, and 15 and
medians 2, 3, and 4 (none of the labels matches a normalization
rule). -/
def c3rows : List RawRow :=
  List.replicate 3 (mkRow "Alpha" 2 "O") ++
    List.replicate 10 (mkRow "Beta" 3 "O") ++
    List.replicate 15 (mkRow "Gamma" 4 "O")

def c4row : RawRow :=
  mkRow "T" 3 "A"

/-- A table with all three columns present and a single parse-valid row
whose school year is "2023-24". -/
def c4csv : Csv :=
  ⟨true, true, true, [c4row]⟩

def c5good : RawRow :=
  mkRow "T" 3 "A"

/-- A row whose date cell failed to parse. -/
def c5bad : RawRow :=
  ⟨none, some 3, "2023-24", "A", "T"⟩

def c5csv : Csv :=
  ⟨true, true, true, [c5good, c5bad]⟩

/-- A table whose score column alias is absent. -/
def c6csv : Csv :=
  ⟨true, false, true, [c4row]⟩

/-- Rows spanning the 2023 → 2024 year boundary, fed in out of calendar
order. -/
def c7rows : List RawRow :=
  [⟨some ⟨2024, 1, 15⟩, some 3, "2023-24", "A", "T"⟩,
   ⟨some ⟨2023, 11, 5⟩, some 4, "2023-24", "A", "T"⟩,
   ⟨some ⟨2023, 12, 2⟩, some 4, "2023-24", "B", "T"⟩]

def c10row : RawRow :=
  mkRow "Volunteer Review" 3 "Lee, Sam"

/-! ### Helper lemmas about the normalizer -/

theorem seqReplace_nil (s : String) : seqReplace [] s = s := rfl

theorem seqReplace_cons (ru : Rule) (rs : List Rule) (s : String) :
    seqReplace (ru :: rs) s = seqReplace rs (applyRule ru s) := rfl

theorem seqReplace_of_no_match (rs : List Rule) (s : String)
    (h : ∀ ru ∈ rs, ruleMatches ru s = false) : seqReplace rs s = s := by
  induction rs with
  | nil => rfl
  | cons ru rs ih =>
    have h1 : applyRule ru s = s := by
      simp [applyRule, h ru (List.mem_cons_self ru rs)]
    rw [seqReplace_cons, h1]
    exact ih fun r hr => h r (List.mem_cons_of_mem _ hr)

theorem noRematch_cons {ru : Rule} {rs : List Rule}
    (h : noRematch (ru :: rs) = true) :
    (∀ r2 ∈ rs, ruleMatches r2 ru.repl = false) ∧ noRematch rs = true := by
  have h' := h
  unfold noRematch at h'
  rw [Bool.and_eq_true, List.all_eq_true] at h'
  exact ⟨fun r2 hr2 => by simpa using h'.1 r2 hr2, h'.2⟩

/-- With no re-matchable replacement, applying the rules in order to the
evolving value computes the same result as a single first-match-wins
pass. -/
theorem seqReplace_eq_firstMatch (rs : List Rule) (s : String)
    (h : noRematch rs = true) :
    seqReplace rs s = firstMatchGroup rs s := by
  induction rs with
  | nil => rfl
  | cons ru rs ih =>
    obtain ⟨h1, h2⟩ := noRematch_cons h
    by_cases hm : ruleMatches ru s = true
    · have ha : applyRule ru s = ru.repl := by simp [applyRule, hm]
      rw [seqReplace_cons, ha, seqReplace_of_no_match rs ru.repl h1]
      simp [firstMatchGroup, hm]
    · have hm' : ruleMatches ru s = false := by
        cases hb : ruleMatches ru s with
        | true => exact absurd hb hm
        | false => rfl
      have ha : applyRule ru s = s := by simp [applyRule, hm']
      rw [seqReplace_cons, ha, ih h2]
      simp [firstMatchGroup, hm']

/-- The replacement strings of `evalRules` are matched by no later
rule. -/
theorem evalRules_noRematch : noRematch evalRules = true := by decide

/-! ### The claims -/

/-- C1: for every input row, `make_eval_group` pairs a row labelled
"Teacher Unannounced Observation Domain 2" with the group
"Teacher (Unannounced)" (case-sensitively, no earlier rule matches that
label), and pairs a row whose label is matched by none of the ordered
rules with that label itself, unchanged. -/
theorem c1_category_normalization (rows : List RawRow) (r : RawRow)
    (hr : r ∈ rows) :
    (r.etype = "Teacher Unannounced Observation Domain 2" →
        (r, "Teacher (Unannounced)") ∈ makeEvalGroup rows) ∧
    ((∀ ru ∈ evalRules, ruleMatches ru r.etype = false) →
        (r, r.etype) ∈ makeEvalGroup rows) := by
  constructor
  · intro he
    refine List.mem_map.mpr ⟨r, hr, ?_⟩
    exact congrArg (Prod.mk r) (by rw [show r.etype = _ from he]; decide)
  · intro hnm
    refine List.mem_map.mpr ⟨r, hr, ?_⟩
    exact congrArg (Prod.mk r) (seqReplace_of_no_match evalRules r.etype hnm)

/-- Witness for C1 on a concrete two-row table: the teacher label lands
in "Teacher (Unannounced)", and "Volunteer Review" (matched by no rule)
passes through unchanged. -/
theorem c1_category_normalization_witness :
    (c1row1, "Teacher (Unannounced)") ∈ makeEvalGroup c1rows ∧
    (c1row2, c1row2.etype) ∈ makeEvalGroup c1rows :=
  ⟨(c1_category_normalization c1rows c1row1 (List.mem_cons_self _ _)).1 rfl,
    (c1_category_normalization c1rows c1row2
        (List.mem_cons_of_mem _ (List.mem_cons_self _ _))).2 (by decide)⟩

/-- C8: for every raw label, the ordered sequence of regex replacements of
`make_eval_group` computes the same group as the single-pass
first-match-wins reference function — a replacement produced by an
earlier rule is never re-matched and re-replaced by a later rule. -/
theorem c8_first_match_refinement (s : String) :
    evalGroupOf s = firstMatchGroup evalRules s :=
  seqReplace_eq_firstMatch evalRules s evalRules_noRematch

/-- Restoring the original columns: dropping the added group column gives
back exactly the input rows in the input order. -/
theorem makeEvalGroup_map_fst (rows : List RawRow) :
    (makeEvalGroup rows).map Prod.fst = rows := by
  induction rows with
  | nil => rfl
  | cons r rs ih =>
    simp only [makeEvalGroup, List.map_cons] at ih ⊢
    rw [ih]

/-- C10: `make_eval_group` is purely additive — the returned table has
exactly the input rows in the input order with all original columns
unchanged, and the only addition is the derived group column, computed
from the evaluation-type label by the normalizer. -/
theorem c10_frame_additive (rows : List RawRow) :
    (makeEvalGroup rows).map Prod.fst = rows ∧
    ∀ p ∈ makeEvalGroup rows, p.2 = evalGroupOf p.1.etype := by
  refine ⟨makeEvalGroup_map_fst rows, ?_⟩
  intro p hp
  simp only [makeEvalGroup, List.mem_map] at hp
  obtain ⟨r, -, rfl⟩ := hp
  simp

/-- Witness for C10 on a concrete one-row table. -/
theorem c10_frame_additive_witness :
    (makeEvalGroup [c10row]).map Prod.fst = [c10row] ∧
    (c10row, "Volunteer Review").2 =
      evalGroupOf (c10row, "Volunteer Review").1.etype :=
  ⟨(c10_frame_additive [c10row]).1,
    (c10_frame_additive [c10row]).2 (c10row, "Volunteer Review")
      (by
        have h : evalGroupOf c10row.etype = "Volunteer Review" := by decide
        rw [← h]
        exact List.mem_cons_self _ _)⟩

/-- Rows surviving the school-year filter step come from its input. -/
theorem mem_of_mem_yearFilter {hasSY : Bool} {filt : Option String}
    {rows : List RawRow} {r : RawRow} (h : r ∈ yearFilter hasSY filt rows) :
    r ∈ rows := by
  cases filt with
  | none => simpa [yearFilter] using h
  | some f =>
    simp only [yearFilter] at h
    by_cases hf : (f != "" && hasSY) = true
    · rw [if_pos hf] at h
      exact (List.mem_filter.mp h).1
    · rw [if_neg hf] at h
      exact h

/-- C5: every row of the cleaned table has both a parsed observation
date and a parsed numeric score, and every input row for which either
parse produced the missing marker is absent from the cleaned table. -/
theorem c5_drop_unparsed (csv : Csv) (filt : Option String)
    (out : List RawRow) (h : loadClean csv filt = Except.ok out) :
    (∀ r ∈ out, r.date.isSome ∧ r.score.isSome) ∧
    (∀ r ∈ csv.rows, r.date = none ∨ r.score = none → r ∉ out) := by
  have hout : ∀ r ∈ out, r ∈ dropInvalid csv.rows := by
    intro r hr
    unfold loadClean at h
    by_cases hc : (csv.hasDateCol && csv.hasScoreCol) = true
    · rw [if_pos hc] at h
      injection h with h
      subst h
      exact mem_of_mem_yearFilter hr
    · rw [if_neg hc] at h
      cases h
  have hvalid : ∀ r ∈ out, r.date.isSome ∧ r.score.isSome := by
    intro r hr
    have hb := (List.mem_filter.mp (hout r hr)).2
    simpa using hb
  refine ⟨hvalid, ?_⟩
  intro r _ hbad hr
  have hs := hvalid r hr
  rcases hbad with hb | hb <;> rw [hb] at hs <;> simp at hs

/-- Witness for C5: a table with one parse-valid row and one row whose
date failed to parse cleans to just the valid row, and the invalid row is
absent. -/
theorem c5_drop_unparsed_witness :
    (c5good.date.isSome ∧ c5good.score.isSome) ∧ c5bad ∉ [c5good] :=
  ⟨(c5_drop_unparsed c5csv none [c5good] rfl).1 c5good
      (List.mem_cons_self _ _),
    (c5_drop_unparsed c5csv none [c5good] rfl).2 c5bad
      (List.mem_cons_of_mem _ (List.mem_cons_self _ _)) (Or.inl rfl)⟩

/-- C6: when the date or score column alias is absent, the pipeline
fails with the configuration error, and no figure and no summary table is
produced — the driver stops before any aggregation, rendering, or
writing. -/
theorem c6_config_error (csv : Csv) (filt : Option String)
    (minNBox minNObs : ℕ)
    (h : csv.hasDateCol = false ∨ csv.hasScoreCol = false) :
    mainRun csv filt minNBox minNObs =
      Except.error "CSV must include the date and score columns." := by
  have hc : (csv.hasDateCol && csv.hasScoreCol) = false := by
    rcases h with h | h <;> simp [h]
  simp [mainRun, loadClean, hc]

/-- Witness for C6 on a table missing the score column. -/
theorem c6_config_error_witness :
    mainRun c6csv none 10 5 =
      Except.error "CSV must include the date and score columns." :=
  c6_config_error c6csv none 10 5 (Or.inr rfl)

/-- C4 as stated fails at the empty-string filter: Python's truthiness
test skips the filter entirely, so a supplied empty filter returns the
table unfiltered instead of the empty exact-match set. -/
theorem c4_filter_cex :
    loadClean c4csv (some "") = Except.ok [c4row] ∧ c4row.schoolYear ≠ "" := by
  exact ⟨rfl, by decide⟩

/-- C4 (amended to non-empty filter values): with the date, score, and
school-year columns present and a non-empty filter supplied, the loader
returns exactly the parse-valid rows whose school-year cell equals the
filter string — all returned rows match, every parse-valid matching row
is returned, and a filter value matching no row yields the empty table
rather than an error. -/
theorem c4_filter_amended (csv : Csv) (f : String)
    (hd : csv.hasDateCol = true) (hs : csv.hasScoreCol = true)
    (hy : csv.hasSchoolYearCol = true) (hf : f ≠ "") :
    ∃ out, loadClean csv (some f) = Except.ok out ∧
      (∀ r ∈ out, r.schoolYear = f) ∧
      (∀ r ∈ csv.rows,
        r.date.isSome → r.score.isSome → r.schoolYear = f → r ∈ out) ∧
      ((∀ r ∈ csv.rows, r.schoolYear ≠ f) → out = []) := by
  have hfb : (f != "") = true := by simpa using hf
  refine ⟨(dropInvalid csv.rows).filter (fun r => r.schoolYear == f),
    ?_, ?_, ?_, ?_⟩
  · simp [loadClean, yearFilter, hd, hs, hy, hfb]
  · intro r hr
    have hb := (List.mem_filter.mp hr).2
    simpa using hb
  · intro r hrm hrd hrs hry
    refine List.mem_filter.mpr ⟨List.mem_filter.mpr ⟨hrm, ?_⟩, ?_⟩
    · simp [hrd, hrs]
    · simp [hry]
  · intro hall
    rw [List.filter_eq_nil_iff]
    intro r hr
    have : r ∈ csv.rows := (List.mem_filter.mp hr).1
    simp [hall r this]

/-- Witness for C4 (amended): filtering the one-row table by its own
school-year value. -/
theorem c4_filter_witness :
    ∃ out, loadClean c4csv (some "2023-24") = Except.ok out ∧
      (∀ r ∈ out, r.schoolYear = "2023-24") ∧
      (∀ r ∈ c4csv.rows,
        r.date.isSome → r.score.isSome → r.schoolYear = "2023-24" →
          r ∈ out) ∧
      ((∀ r ∈ c4csv.rows, r.schoolYear ≠ "2023-24") → out = []) :=
  c4_filter_amended c4csv "2023-24" rfl rfl rfl (by decide)

/-- Tagging each element with a derived value and projecting the tags away
is the identity. -/
theorem map_fst_map_pair {α β : Type} (f : α → β) (l : List α) :
    (l.map (fun k => (k, f k))).map Prod.fst = l := by
  induction l with
  | nil => rfl
  | cons a t ih =>
    simp only [List.map_cons] at ih ⊢
    rw [ih]

/-- C7: the monthly aggregation lists month buckets in ascending order of
the derived month-start date; in particular months spanning the 2023 →
2024 year boundary appear in calendar order. -/
theorem c7_monthly_chronological :
    (∀ rows : List RawRow,
        List.Sorted monthKeyLE ((monthlyMeans rows).map Prod.fst)) ∧
    (monthlyMeans c7rows).map Prod.fst =
      [((2023 : ℤ), 11), ((2023 : ℤ), 12), ((2024 : ℤ), 1)] := by
  constructor
  · intro rows
    have h : (monthlyMeans rows).map Prod.fst =
        List.insertionSort monthKeyLE (monthKeys rows) :=
      map_fst_map_pair _ _
    rw [h]
    exact List.sorted_insertionSort _ _
  · decide

/-! ### Constant-valued score lists -/

theorem sum_const_q {v : ℚ} :
    ∀ {xs : List ℚ}, (∀ x ∈ xs, x = v) → xs.sum = xs.length * v := by
  intro xs
  induction xs with
  | nil => simp
  | cons a t ih =>
    intro h
    rw [List.sum_cons, h a (List.mem_cons_self _ _),
      ih fun x hx => h x (List.mem_cons_of_mem _ hx), List.length_cons]
    push_cast
    ring

theorem meanQ_const {v : ℚ} {xs : List ℚ} (hne : xs ≠ [])
    (hall : ∀ x ∈ xs, x = v) : meanQ xs = v := by
  have h0 : xs.length ≠ 0 := by simpa [List.length_eq_zero] using hne
  have hlen : (xs.length : ℚ) ≠ 0 := Nat.cast_ne_zero.mpr h0
  rw [meanQ, sum_const_q hall, mul_comm, mul_div_assoc, div_self hlen,
    mul_one]

theorem meanOpt_const {v : ℚ} {xs : List ℚ} (hne : xs ≠ [])
    (hall : ∀ x ∈ xs, x = v) : meanOpt xs = some v := by
  rw [meanOpt, if_neg (by simpa using hne), meanQ_const hne hall]

theorem medianOpt_const {v : ℚ} {xs : List ℚ} (hne : xs ≠ [])
    (hall : ∀ x ∈ xs, x = v) : medianOpt xs = some v := by
  have hlen : xs.length ≠ 0 := by simpa [List.length_eq_zero] using hne
  have hsall : ∀ x ∈ List.insertionSort (· ≤ ·) xs, x = v := fun x hx =>
    hall x ((List.mem_insertionSort _).mp hx)
  have hslen : (List.insertionSort (· ≤ ·) xs).length = xs.length :=
    (List.perm_insertionSort _ _).length_eq
  have hget : ∀ i, i < xs.length →
      (List.insertionSort (· ≤ ·) xs)[i]? = some v := by
    intro i hi
    have hi' : i < (List.insertionSort (· ≤ ·) xs).length := by
      rw [hslen]
      exact hi
    rw [List.getElem?_eq_getElem hi']
    exact congrArg some (hsall _ (List.getElem_mem hi'))
  rw [medianOpt, if_neg hlen]
  by_cases hodd : xs.length % 2 = 1
  · rw [if_pos hodd]
    exact hget _ (Nat.div_lt_self (Nat.pos_of_ne_zero hlen) one_lt_two)
  · rw [if_neg hodd]
    have ha := hget (xs.length / 2 - 1) (by omega)
    have hb := hget (xs.length / 2)
      (Nat.div_lt_self (Nat.pos_of_ne_zero hlen) one_lt_two)
    rw [ha, hb]
    have hv : (v + v) / 2 = v := by ring
    simp [hv]

/-! ### Evaluating the observer pipeline on the concrete table -/

theorem observerKeys_c2 : observerKeys c2rows = ["Adams, Pat"] := by decide

theorem observerScores_c2 :
    observerScores c2rows "Adams, Pat" = [4, 4, 4, 4, 4] := by decide

theorem observerStats_c2 :
    observerStats c2rows 5 = [⟨"Adams, Pat", some 4, 5⟩] := by
  have hmean : meanOpt [(4 : ℚ), 4, 4, 4, 4] = some 4 :=
    meanOpt_const (by decide) (by decide)
  rw [observerStats, observerKeys_c2]
  simp [observerScores_c2, hmean]

theorem retainedMeans_c2 : retainedMeans c2rows 5 = [4] := by
  rw [retainedMeans, observerStats_c2]
  rfl

/-- C2 as stated fails: the code caps the upper limit at 4.05, so with a
single retained observer of mean 4.0 the axis top is 4.05, not the
claimed `max(4.0, 4.0 + 0.1) = 4.1`. -/
theorem c2_ylim_cex :
    observerYlim c2rows 5 = some (3, 81 / 20) ∧
    observerYlim c2rows 5 ≠
      some (min 3 ((4 : ℚ) - 1 / 10), max 4 ((4 : ℚ) + 1 / 10)) := by
  have h : observerYlim c2rows 5 =
      some (min 3 ((4 : ℚ) - 1 / 10),
        min (81 / 20) (max 4 ((4 : ℚ) + 1 / 10))) := by
    simp only [observerYlim, retainedMeans_c2, listMin, listMax]
    rfl
  constructor
  · rw [h]
    norm_num
  · rw [h]
    simp only [ne_eq, Option.some.injEq, Prod.mk.injEq, not_and]
    intro
    norm_num

/-- C2 (amended with the 4.05 cap): for a nonempty retained-observer set,
the lower axis limit is `min(3.0, minMean - 0.1)` — as claimed — and the
upper limit is `min(4.05, max(4.0, maxMean + 0.1))`, the claimed value
additionally capped at 4.05. -/
theorem c2_ylim_amended (rows : List RawRow) (minN : ℕ)
    (h1 : 1 ≤ minN) (h2 : observerStats rows minN ≠ []) :
    ∃ lo hi, listMin (retainedMeans rows minN) = some lo ∧
      listMax (retainedMeans rows minN) = some hi ∧
      observerYlim rows minN =
        some (min 3 (lo - 1 / 10), min (81 / 20) (max 4 (hi + 1 / 10))) := by
  have hsome : ∀ st ∈ observerStats rows minN, ∃ m, st.meanv = some m := by
    intro st hst
    rw [observerStats, List.mem_insertionSort, List.mem_filter] at hst
    obtain ⟨hmem, hcnt⟩ := hst
    rw [List.mem_map] at hmem
    obtain ⟨o, -, rfl⟩ := hmem
    simp only [decide_eq_true_eq] at hcnt
    have hne : observerScores rows o ≠ [] := by
      intro h0
      rw [h0] at hcnt
      simp at hcnt
      omega
    exact ⟨meanQ (observerScores rows o), by
      show meanOpt (observerScores rows o) = _
      rw [meanOpt, if_neg (by simpa using hne)]⟩
  obtain ⟨st, rest, hstats⟩ : ∃ st rest,
      observerStats rows minN = st :: rest := by
    cases hs : observerStats rows minN with
    | nil => exact absurd hs h2
    | cons a t => exact ⟨a, t, rfl⟩
  obtain ⟨m, hm⟩ := hsome st (by rw [hstats]; exact List.mem_cons_self _ _)
  obtain ⟨x, xs, hx⟩ : ∃ x xs, retainedMeans rows minN = x :: xs := by
    refine ⟨m, List.filterMap (fun st => st.meanv) rest, ?_⟩
    rw [retainedMeans, hstats]
    simp [List.filterMap_cons, hm]
  refine ⟨xs.foldl min x, xs.foldl max x, ?_, ?_, ?_⟩
  · rw [hx]
    rfl
  · rw [hx]
    rfl
  · simp only [observerYlim]
    rw [hx]
    rfl

/-- Witness for C2 (amended) on the concrete five-observation table. -/
theorem c2_ylim_witness :
    ∃ lo hi, listMin (retainedMeans c2rows 5) = some lo ∧
      listMax (retainedMeans c2rows 5) = some hi ∧
      observerYlim c2rows 5 =
        some (min 3 (lo - 1 / 10), min (81 / 20) (max 4 (hi + 1 / 10))) :=
  c2_ylim_amended c2rows 5 (by omega) (by rw [observerStats_c2]; simp)

/-! ### Evaluating the category pipeline on the concrete table -/

theorem evalGroupKeys_c3 :
    evalGroupKeys c3rows = ["Alpha", "Beta", "Gamma"] := by decide

theorem groupScores_c3_alpha :
    groupScores c3rows "Alpha" = [2, 2, 2] := by decide

theorem groupScores_c3_beta :
    groupScores c3rows "Beta" = [3, 3, 3, 3, 3, 3, 3, 3, 3, 3] := by decide

theorem groupScores_c3_gamma :
    groupScores c3rows "Gamma" =
      [4, 4, 4, 4, 4, 4, 4, 4, 4, 4, 4, 4, 4, 4, 4] := by decide

theorem groupStats_c3 :
    groupStats c3rows =
      [⟨"Alpha", 3, some 2, some 2⟩, ⟨"Beta", 10, some 3, some 3⟩,
        ⟨"Gamma", 15, some 4, some 4⟩] := by
  have hm2 : meanOpt [(2 : ℚ), 2, 2] = some 2 :=
    meanOpt_const (by decide) (by decide)
  have hm3 : meanOpt [(3 : ℚ), 3, 3, 3, 3, 3, 3, 3, 3, 3] = some 3 :=
    meanOpt_const (by decide) (by decide)
  have hm4 :
      meanOpt [(4 : ℚ), 4, 4, 4, 4, 4, 4, 4, 4, 4, 4, 4, 4, 4, 4] =
        some 4 :=
    meanOpt_const (by decide) (by decide)
  have hd2 : medianOpt [(2 : ℚ), 2, 2] = some 2 :=
    medianOpt_const (by decide) (by decide)
  have hd3 : medianOpt [(3 : ℚ), 3, 3, 3, 3, 3, 3, 3, 3, 3] = some 3 :=
    medianOpt_const (by decide) (by decide)
  have hd4 :
      medianOpt [(4 : ℚ), 4, 4, 4, 4, 4, 4, 4, 4, 4, 4, 4, 4, 4, 4] =
        some 4 :=
    medianOpt_const (by decide) (by decide)
  rw [groupStats, evalGroupKeys_c3]
  simp [groupScores_c3_alpha, groupScores_c3_beta, groupScores_c3_gamma,
    hm2, hm3, hm4, hd2, hd3, hd4]

theorem retainedGroups_c3 :
    retainedGroups c3rows 10 =
      [⟨"Beta", 10, some 3, some 3⟩, ⟨"Gamma", 15, some 4, some 4⟩] := by
  rw [retainedGroups, groupStats_c3]
  decide

/-- C3: the grouped-category summary contains exactly the evaluation
groups whose observation count meets the minimum threshold, in ascending
order of group median; on a table with group counts 3, 10, and 15 and
threshold 10, exactly the count-10 and count-15 groups appear, sorted by
median. -/
theorem c3_threshold_exclusion :
    (∀ (rows : List RawRow) (minN : ℕ),
        (∀ st, st ∈ retainedGroups rows minN ↔
            st ∈ groupStats rows ∧ minN ≤ st.count) ∧
        List.Sorted medLE (retainedGroups rows minN)) ∧
    (retainedGroups c3rows 10).map GroupStat.key = ["Beta", "Gamma"] ∧
    (retainedGroups c3rows 10).map GroupStat.count = [10, 15] := by
  refine ⟨fun rows minN => ⟨fun st => ?_, ?_⟩, ?_, ?_⟩
  · rw [retainedGroups, List.mem_insertionSort, List.mem_filter]
    simp
  · exact List.sorted_insertionSort _ _
  · rw [retainedGroups_c3]
    rfl
  · rw [retainedGroups_c3]
    rfl

/-- C9 as stated fails on a one-row table: with a single score, pandas'
sample standard deviation (`ddof=1`) is NaN, not zero, although the
histogram still renders. -/
theorem c9_std_cex :
    sampleStd [(4 : ℚ)] ≠ some 0 ∧ (plotHist [(4 : ℚ)]).isSome := by
  constructor
  · have h : sampleStd [(4 : ℚ)] = none := by
      simp [sampleStd, sampleVarOpt]
    rw [h]
    simp
  · simp [plotHist]

/-- C9 (amended to at least two rows): for every cleaned table with two
or more rows whose scores are all equal, the reported standard deviation
is zero and the histogram rendering completes. -/
theorem c9_std_amended (xs : List ℚ) (v : ℚ) (h2 : 2 ≤ xs.length)
    (hall : ∀ x ∈ xs, x = v) :
    sampleStd xs = some 0 ∧ (plotHist xs).isSome := by
  have hne : xs ≠ [] := by
    intro h0
    rw [h0] at h2
    simp at h2
  have hmean : meanQ xs = v := meanQ_const hne hall
  have hvar : sampleVarOpt xs = some 0 := by
    rw [sampleVarOpt, if_neg (by omega)]
    have hz : xs.map (fun x => (x - meanQ xs) ^ 2) =
        xs.map (fun _ => (0 : ℚ)) := by
      apply List.map_congr_left
      intro x hx
      rw [hall x hx, hmean]
      ring
    rw [hz]
    norm_num [List.map_const]
  constructor
  · rw [sampleStd, hvar]
    simp
  · rw [plotHist, if_neg (by simpa using hne)]
    rfl

/-- Witness for C9 (amended) on the two-row all-equal table. -/
theorem c9_std_witness :
    sampleStd [(4 : ℚ), 4] = some 0 ∧ (plotHist [(4 : ℚ), 4]).isSome :=
  c9_std_amended [4, 4] 4 (by decide) (by decide)

end EvalViz
